import Mathlib

/-!
Shallow embedding of `.github/scripts/update-readme.py`: a script that scans
release folders, reads per-folder YAML metadata, and regenerates a Markdown
table in a README file.

YAML scalar values are modelled by `Value` (strings and integers, the two
shapes exercised by the spec).  Python dictionaries are modelled by
association lists with first-key lookup.  Python raises `TypeError` when a
non-string value meets string concatenation or `str.join`; the cell-building
functions therefore return `Option String`, with `none` standing for that
runtime error.  YAML parse failures propagate as exceptions; `main` is
modelled in `Except PyError`.
-/

/-- A YAML scalar value as used by the script: a string or an integer. -/
inductive Value where
  | vStr : String → Value
  | vInt : Int → Value
deriving DecidableEq, Repr

/-- Python `str(v)` on a scalar value. -/
def Value.pyStr : Value → String
  | .vStr s => s
  | .vInt n => toString n

/-- A parsed metadata mapping (`dict` of string keys to scalar values). -/
abbrev Dict := List (String × Value)

/-- The folder-name → metadata mapping built by `main` (`folders_data`). -/
abbrev FoldersData := List (String × Dict)

/-- Python `d.get(k, "")` used where the result then flows into string
concatenation or `' | '.join`: a stored non-string value would raise
`TypeError` there, modelled as `none`. -/
def getStr (d : Dict) (k : String) : Option String :=
  match d.lookup k with
  | none => some ""
  | some (.vStr s) => some s
  | some (.vInt _) => none

/-- Python's string comparison, as used by `sorted`: lexicographic on the
code-point sequence.  (Provably equivalent to Mathlib's `≤` on `String`;
see `pyLe_iff`.) -/
def pyLe (a b : String) : Prop := a.data ≤ b.data

instance pyLeDec : DecidableRel pyLe :=
  fun a b => inferInstanceAs (Decidable (a.data ≤ b.data))

/-- Python `sorted` on a list of strings.  Strings form a linear order, so
the sorted permutation is unique and any sorting algorithm agrees with
Python's stable mergesort. -/
def pySort (l : List String) : List String := List.insertionSort pyLe l

/-- Python: `desired_order = ["Description", "Version", "Language", "Creator"]`. -/
def desired_order : List String := ["Description", "Version", "Language", "Creator"]

/-- Keys of one metadata mapping (`data.keys()`). -/
def dictKeys (d : Dict) : List String := d.map Prod.fst

/-- Python: `all_keys = sorted(set of all keys of all records)`. -/
def all_keys (folders_data : FoldersData) : List String :=
  pySort ((folders_data.map (fun p => dictKeys p.2)).flatten.dedup)

/-- Python: `ordered_keys = [key for key in desired_order if key in all_keys]`. -/
def ordered_keys (folders_data : FoldersData) : List String :=
  desired_order.filter (fun k => decide (k ∈ all_keys folders_data))

/-- Python: `headers = ["Folder Name"] + ordered_keys`. -/
def headers (folders_data : FoldersData) : List String :=
  "Folder Name" :: ordered_keys folders_data

/-- Python: `header_line = "| " + " | ".join(headers) + " |\n"`. -/
def header_line (folders_data : FoldersData) : String :=
  "| " ++ String.intercalate " | " (headers folders_data) ++ " |\n"

/-- Python: `"-" * len(header)`. -/
def dashes (header : String) : String :=
  String.mk (List.replicate header.length '-')

/-- Python: the divider line, `"| " + " | ".join(["-" * len(h) for h in headers]) + " |\n"`. -/
def divider_line (folders_data : FoldersData) : String :=
  "| " ++ String.intercalate " | " ((headers folders_data).map dashes) ++ " |\n"

/-- The Description cell: `descr = d.get("Description", "")`, then
`descr += "<br>[Web editor](" + d.get("Editor", "") + ")"` appended when the key Editor is present. -/
def descrCell (d : Dict) : Option String := do
  let descr ← getStr d "Description"
  match d.lookup "Editor" with
  | none => pure descr
  | some v =>
    match v with
    | .vStr e => pure (descr ++ "<br>[Web editor](" ++ e ++ ")")
    | .vInt _ => none

/-- Python: `str(d.get("Version", ""))`. -/
def versBase (d : Dict) : String :=
  Value.pyStr ((d.lookup "Version").getD (.vStr ""))

/-- The Version cell: `vers = str(d.get("Version", ""))`, then
`vers += "<br>" + d.get("Status", "")` appended when the key Status is present. -/
def versCell (d : Dict) : Option String := do
  let vers := versBase d
  match d.lookup "Status" with
  | none => pure vers
  | some v =>
    match v with
    | .vStr s => pure (vers ++ "<br>" ++ s)
    | .vInt _ => none

/-- The list of cells of one data row:
`[folder, descr, vers, d.get("Language", ""), d.get("Creator", "")]`. -/
def rowCells (folder : String) (d : Dict) : Option (List String) := do
  let descr ← descrCell d
  let vers ← versCell d
  let lang ← getStr d "Language"
  let creator ← getStr d "Creator"
  pure [folder, descr, vers, lang, creator]

/-- Python: one rendered row, `"| " + " | ".join(row) + " |\n"`. -/
def row_line (cells : List String) : String :=
  "| " ++ String.intercalate " | " cells ++ " |\n"

/-- Python: `sorted_folders = sorted(folders_data.keys())`. -/
def sorted_folders (folders_data : FoldersData) : List String :=
  pySort (folders_data.map Prod.fst)

/-- The row-building loop, one row per folder name in the given order;
`folders_data[folder]` is the association-list lookup (a missing key would
be a `KeyError`, modelled as `none`, and never happens for keys of the
mapping). -/
def build_rows (folders_data : FoldersData) : List String → Option (List (List String))
  | [] => some []
  | folder :: rest => do
    let d ← folders_data.lookup folder
    let cells ← rowCells folder d
    let others ← build_rows folders_data rest
    pure (cells :: others)

/-- The cell lists of all data rows, in `sorted_folders` order. -/
def data_rows (folders_data : FoldersData) : Option (List (List String)) :=
  build_rows folders_data (sorted_folders folders_data)

/-- The value `new_table`: header line, divider line, then one rendered line per row. -/
def table_lines (folders_data : FoldersData) : Option (List String) := do
  let rows ← data_rows folders_data
  pure (header_line folders_data :: divider_line folders_data :: rows.map row_line)

/-- The full text written to the README:
`"# Releases  \n"` followed by every line of `new_table`. -/
def update_readme_content (folders_data : FoldersData) : Option String :=
  (table_lines folders_data).map (fun lines => "# Releases  \n" ++ String.join lines)

/-- The README file content after `update_readme` runs against a file that
previously held `prior`: the file is opened with mode `"w"` (truncate and
overwrite) only after `new_table` is fully built, so a `TypeError` while
building the table leaves the file untouched. -/
def update_readme_write (prior : String) (folders_data : FoldersData) : String :=
  match update_readme_content folders_data with
  | some c => c
  | none => prior

/-- The two failure modes of a run: a YAML parse error raised by
`yaml.safe_load`, or a `TypeError` raised by string operations. -/
inductive PyError where
  | parseError : PyError
  | typeError : PyError
deriving DecidableEq, Repr

/-- Result of `yaml.safe_load` on one file: a mapping, or a parse failure. -/
inductive ParseResult where
  | ok : Dict → ParseResult
  | err : ParseResult
deriving DecidableEq, Repr

/-- Python: `file.endswith(".yaml") or file.endswith(".yml")`; the
`endswith` test is: the argument is a suffix of the code-point sequence. -/
def isMetaFile (name : String) : Bool :=
  List.isSuffixOf ".yaml".data name.data || List.isSuffixOf ".yml".data name.data

/-- One release folder as seen by `main`: its name and its directory
entries in listing order, each with the outcome of parsing it as YAML. -/
abbrev FolderEntry := String × List (String × ParseResult)

/-- The per-folder loop of `main`: `data = {}`, then for the first listed
file whose name ends in `.yaml` or `.yml`, the script runs
`data.update(read_data(path))` and breaks out of the loop.  A parse failure propagates; no matching file leaves `data`
empty. -/
def loadFolder (files : List (String × ParseResult)) : Except PyError Dict :=
  match files.find? (fun f => isMetaFile f.1) with
  | none => .ok []
  | some (_, .ok d) => .ok d
  | some (_, .err) => .error .parseError

/-- The folder loop of `main`, building `folders_data`; the first parse
failure aborts the whole loop. -/
def scan_folders : List FolderEntry → Except PyError FoldersData
  | [] => .ok []
  | p :: rest => do
    let d ← loadFolder p.2
    let others ← scan_folders rest
    pure ((p.1, d) :: others)

/-- The whole run of `main`: scan all folders, then build the README text
(`TypeError` while building is also fatal). -/
def main_result (fs : List FolderEntry) : Except PyError String := do
  let folders_data ← scan_folders fs
  match update_readme_content folders_data with
  | some c => .ok c
  | none => .error .typeError

/-- The README file content after running `main` against a file that
previously held `prior`: any error before the write leaves it untouched. -/
def main_file (fs : List FolderEntry) (prior : String) : String :=
  match main_result fs with
  | .ok c => c
  | .error _ => prior

/-! ### The Python string order agrees with the order on `String` -/

theorem pyLe_iff (a b : String) : pyLe a b ↔ a ≤ b := by
  rw [String.le_iff_toList_le]
  exact Iff.rfl

instance pyLeTotal : IsTotal String pyLe :=
  ⟨fun a b => by
    rw [pyLe_iff, pyLe_iff]
    exact le_total a b⟩

instance pyLeTrans : IsTrans String pyLe :=
  ⟨fun a b c h1 h2 => by
    rw [pyLe_iff] at h1 h2 ⊢
    exact le_trans h1 h2⟩

theorem pySort_sorted (l : List String) : List.Sorted (· ≤ ·) (pySort l) :=
  (List.sorted_insertionSort pyLe l).imp (fun hab => (pyLe_iff _ _).mp hab)

theorem pySort_perm (l : List String) : (pySort l).Perm l :=
  List.perm_insertionSort pyLe l

theorem pySort_eq_of_perm {l l' : List String} (h : l.Perm l') : pySort l = pySort l' :=
  List.eq_of_perm_of_sorted ((pySort_perm l).trans (h.trans (pySort_perm l').symm))
    (pySort_sorted l) (pySort_sorted l')

/-! ### Helper lemmas about the table builder -/

theorem mem_all_keys {fd : FoldersData} {k : String} :
    k ∈ all_keys fd ↔ ∃ p ∈ fd, k ∈ dictKeys p.2 := by
  unfold all_keys
  rw [(pySort_perm _).mem_iff, List.mem_dedup, List.mem_flatten]
  constructor
  · rintro ⟨l, hl, hk⟩
    rw [List.mem_map] at hl
    obtain ⟨p, hp, rfl⟩ := hl
    exact ⟨p, hp, hk⟩
  · rintro ⟨p, hp, hk⟩
    exact ⟨dictKeys p.2, List.mem_map.mpr ⟨p, hp, rfl⟩, hk⟩

theorem rowCells_eq {folder : String} {d : Dict} {cells : List String}
    (h : rowCells folder d = some cells) :
    ∃ descr vers lang creator,
      descrCell d = some descr ∧ versCell d = some vers ∧
      getStr d "Language" = some lang ∧ getStr d "Creator" = some creator ∧
      cells = [folder, descr, vers, lang, creator] := by
  unfold rowCells at h
  simp only [bind, Option.bind_eq_some, Option.pure_def, Option.some.injEq] at h
  obtain ⟨descr, h1, vers, h2, lang, h3, creator, h4, h5⟩ := h
  exact ⟨descr, vers, lang, creator, h1, h2, h3, h4, h5.symm⟩

theorem build_rows_spec {fd : FoldersData} :
    ∀ {l : List String} {rows : List (List String)}, build_rows fd l = some rows →
      rows.map (fun r => r.head?) = l.map some ∧ ∀ r ∈ rows, r.length = 5 := by
  intro l
  induction l with
  | nil =>
    intro rows h
    simp only [build_rows, Option.some.injEq] at h
    subst h
    simp
  | cons folder rest ih =>
    intro rows h
    simp only [build_rows, bind, Option.bind_eq_some, Option.pure_def,
      Option.some.injEq] at h
    obtain ⟨d, _, cells, hcells, others, hothers, hrows⟩ := h
    obtain ⟨descr, vers, lang, creator, _, _, _, _, hc⟩ := rowCells_eq hcells
    obtain ⟨ihmap, ihlen⟩ := ih hothers
    subst hrows
    subst hc
    refine ⟨by simp [ihmap], ?_⟩
    intro r hr
    rcases List.mem_cons.mp hr with h | h
    · subst h
      rfl
    · exact ihlen r h

/-! ### Claim theorems -/

/-- Folder b of the end-to-end example. -/
def exampleDictB : Dict :=
  [("Description", .vStr "Tool B"), ("Version", .vInt 2), ("Language", .vStr "Go")]

/-- Folder a of the end-to-end example. -/
def exampleDictA : Dict :=
  [("Description", .vStr "Tool A"), ("Version", .vStr "1.0"), ("Creator", .vStr "X"),
   ("Editor", .vStr "http://e")]

/-- The end-to-end example mapping, folder b enumerated before folder a. -/
def exampleFolders : FoldersData := [("b", exampleDictB), ("a", exampleDictA)]

/-- C1: for the two-folder example, row a is generated before row b, row a's
Description cell is `Tool A<br>[Web editor](http://e)`, row a's Creator cell
is `X`, and row b's Creator cell is the empty string. -/
theorem end_to_end_example :
    data_rows exampleFolders =
      some [["a", "Tool A<br>[Web editor](http://e)", "1.0", "", "X"],
            ["b", "Tool B", "2", "Go", ""]] ∧
    descrCell exampleDictA = some "Tool A<br>[Web editor](http://e)" ∧
    getStr exampleDictA "Creator" = some "X" ∧
    getStr exampleDictB "Creator" = some "" := by
  decide

/-- C2: the header row is the folder-name column followed by exactly those
keys of the fixed list that occur in at least one record, kept in the fixed
order (a sublist of `desired_order`); keys of no record and keys outside the
fixed list never appear. -/
theorem header_columns (fd : FoldersData) :
    (headers fd).head? = some "Folder Name" ∧
    (headers fd).tail.Sublist desired_order ∧
    ∀ k, k ∈ (headers fd).tail ↔ k ∈ desired_order ∧ ∃ p ∈ fd, k ∈ dictKeys p.2 := by
  refine ⟨rfl, List.filter_sublist _, ?_⟩
  intro k
  show k ∈ ordered_keys fd ↔ _
  rw [ordered_keys, List.mem_filter, decide_eq_true_eq, mem_all_keys]

/-- C4: when the key Editor is present with string value e, the Description
cell is the Description default-empty value with exactly
`<br>[Web editor](e)` appended; when Editor is absent nothing is appended. -/
theorem description_editor_suffix (d : Dict) :
    (∀ e, d.lookup "Editor" = some (.vStr e) →
      descrCell d = (getStr d "Description").map
        (fun descr => descr ++ "<br>[Web editor](" ++ e ++ ")")) ∧
    (d.lookup "Editor" = none → descrCell d = getStr d "Description") ∧
    (∀ s, d.lookup "Description" = some (.vStr s) → getStr d "Description" = some s) ∧
    (d.lookup "Description" = none → getStr d "Description" = some "") := by
  refine ⟨?_, ?_, ?_, ?_⟩
  · intro e he
    cases hd : getStr d "Description" <;>
      simp [descrCell, he, hd, bind]
  · intro he
    cases hd : getStr d "Description" <;>
      simp [descrCell, he, hd, bind]
  · intro s hs
    simp [getStr, hs]
  · intro h
    simp [getStr, h]

/-- C4 witness: the theorem applied to the example record of folder a. -/
theorem description_editor_suffix_witness :
    descrCell exampleDictA =
      (getStr exampleDictA "Description").map
        (fun descr => descr ++ "<br>[Web editor](" ++ "http://e" ++ ")") :=
  (description_editor_suffix exampleDictA).1 "http://e" (by decide)

/-- C5: the Version cell is `str` of the Version default-empty value, with
exactly `<br>` and the Status value appended when the key Status is present
with string value s, and nothing appended when Status is absent. -/
theorem version_status_suffix (d : Dict) :
    (∀ s, d.lookup "Status" = some (.vStr s) →
      versCell d = some (versBase d ++ "<br>" ++ s)) ∧
    (d.lookup "Status" = none → versCell d = some (versBase d)) ∧
    (∀ v, d.lookup "Version" = some v → versBase d = v.pyStr) ∧
    (d.lookup "Version" = none → versBase d = "") := by
  refine ⟨?_, ?_, ?_, ?_⟩
  · intro s hs
    simp [versCell, hs]
  · intro hs
    simp [versCell, hs]
  · intro v hv
    simp [versBase, hv]
  · intro hv
    simp [versBase, hv]
    rfl

/-- C5 witness: the theorem applied to a record carrying a Status key. -/
theorem version_status_suffix_witness :
    versCell [("Version", .vInt 2), ("Status", Value.vStr "beta")] =
      some (versBase [("Version", .vInt 2), ("Status", Value.vStr "beta")] ++ "<br>" ++ "beta") :=
  (version_status_suffix _).1 "beta" (by decide)

/-- C3: the data rows are ordered by folder name in strictly ascending
lexicographic order (folder names are unique, as keys of a dictionary), the
order does not depend on the enumeration order of the mapping, and the first
cell of each row is the folder name in that sorted order. -/
theorem rows_sorted_ascending (fd fd' : FoldersData)
    (hnd : (fd.map Prod.fst).Nodup) (hperm : fd.Perm fd') :
    List.Sorted (· < ·) (sorted_folders fd) ∧
    sorted_folders fd' = sorted_folders fd ∧
    ∀ rows, data_rows fd = some rows →
      rows.map (fun r => r.head?) = (sorted_folders fd).map some := by
  refine ⟨?_, ?_, ?_⟩
  · exact (pySort_sorted _).lt_of_le ((pySort_perm _).nodup_iff.mpr hnd)
  · exact pySort_eq_of_perm (hperm.map Prod.fst).symm
  · intro rows h
    exact (build_rows_spec h).1

/-- C3 witness: the theorem applied to a two-folder mapping and a
permutation of it. -/
theorem rows_sorted_ascending_witness :
    List.Sorted (· < ·) (sorted_folders [("b", ([] : Dict)), ("a", [])]) ∧
    sorted_folders [("a", ([] : Dict)), ("b", [])] =
      sorted_folders [("b", ([] : Dict)), ("a", [])] ∧
    ∀ rows, data_rows [("b", ([] : Dict)), ("a", [])] = some rows →
      rows.map (fun r => r.head?) =
        (sorted_folders [("b", ([] : Dict)), ("a", [])]).map some :=
  rows_sorted_ascending [("b", []), ("a", [])] [("a", []), ("b", [])]
    (by decide) (by decide)

/-- The length of a dash run equals the length of the header it is built
from. -/
theorem dashes_length (s : String) : (dashes s).length = s.length := by
  show (List.replicate s.length '-').length = s.length
  exact List.length_replicate _ _

/-- C6: the divider row is built from one cell per column, each a run of
dashes whose length equals the character length of that column's header
text. -/
theorem divider_dash_lengths (fd : FoldersData) :
    ∃ cells : List String,
      divider_line fd = "| " ++ String.intercalate " | " cells ++ " |\n" ∧
      cells.map String.length = (headers fd).map String.length ∧
      ∀ c ∈ cells, c.data = List.replicate c.length '-' := by
  refine ⟨(headers fd).map dashes, rfl, ?_, ?_⟩
  · rw [List.map_map]
    exact List.map_congr_left (fun h _ => dashes_length h)
  · intro c hc
    obtain ⟨h, _, rfl⟩ := List.mem_map.mp hc
    rw [dashes_length]
    rfl

/-- C7: a folder whose directory holds no file with a `.yaml` or `.yml`
suffix gets the empty mapping as its record, and its data row is the folder
name followed by four empty cells. -/
theorem no_metadata_file_empty_row (folder : String)
    (files : List (String × ParseResult))
    (h : ∀ f ∈ files, isMetaFile f.1 = false) :
    loadFolder files = .ok [] ∧
    rowCells folder [] = some [folder, "", "", "", ""] := by
  constructor
  · have hn : files.find? (fun f => isMetaFile f.1) = none :=
      List.find?_eq_none.mpr (fun f hf => by simp [h f hf])
    simp [loadFolder, hn]
  · rfl

/-- C7 witness: the theorem applied to a folder holding one non-metadata
file. -/
theorem no_metadata_file_empty_row_witness :
    loadFolder [("notes.txt", ParseResult.err)] = .ok [] ∧
    rowCells "tool" [] = some ["tool", "", "", "", ""] :=
  no_metadata_file_empty_row "tool" [("notes.txt", .err)] (by decide)

/-- Folding string append from an accumulator is the accumulator followed by
the fold from the empty string. -/
theorem foldl_append_acc (l : List String) :
    ∀ a : String, l.foldl (fun r s => r ++ s) a = a ++ l.foldl (fun r s => r ++ s) "" := by
  induction l with
  | nil =>
    intro a
    simp
  | cons b l ih =>
    intro a
    rw [List.foldl_cons, List.foldl_cons, ih (a ++ b), ih ("" ++ b)]
    simp [String.append_assoc]

/-- Python `"".join`-style concatenation peels off the first line. -/
theorem string_join_cons (s : String) (l : List String) :
    String.join (s :: l) = s ++ String.join l := by
  show (s :: l).foldl (fun r t => r ++ t) "" = s ++ l.foldl (fun r t => r ++ t) ""
  rw [List.foldl_cons, foldl_append_acc]
  simp

/-- C8: whatever the prior content of the README was, after a successful run
the file holds exactly the title line followed by the header line, the
divider line and all data rows in order; nothing of the prior content
survives. -/
theorem readme_full_replacement (fd : FoldersData) (prior : String)
    (rows : List (List String)) (h : data_rows fd = some rows) :
    update_readme_write prior fd =
      "# Releases  \n" ++
        (header_line fd ++ (divider_line fd ++ String.join (rows.map row_line))) := by
  have hc : update_readme_content fd =
      some ("# Releases  \n" ++
        (header_line fd ++ (divider_line fd ++ String.join (rows.map row_line)))) := by
    simp [update_readme_content, table_lines, h, bind, string_join_cons]
  simp [update_readme_write, hc]

/-- C8 witness: the theorem applied to the empty mapping and a concrete
prior file content, evaluated to the literal replacement text. -/
theorem readme_full_replacement_witness :
    update_readme_write "old content" [] =
      "# Releases  \n| Folder Name |\n| ----------- |\n" :=
  (readme_full_replacement [] "old content" [] rfl).trans (by decide)

/-- A folder load can only fail with a parse error. -/
theorem loadFolder_error {files : List (String × ParseResult)} {e : PyError}
    (h : loadFolder files = .error e) : e = .parseError := by
  unfold loadFolder at h
  split at h
  · exact absurd h (by simp)
  · exact absurd h (by simp)
  · cases h
    rfl

/-- If any folder of the listing fails to load, the whole scan fails with a
parse error. -/
theorem scan_folders_error {fs : List FolderEntry} {entry : FolderEntry}
    (hmem : entry ∈ fs) (herr : loadFolder entry.2 = .error .parseError) :
    scan_folders fs = .error .parseError := by
  induction fs with
  | nil => cases hmem
  | cons p rest ih =>
    rcases List.mem_cons.mp hmem with rfl | hmem
    · simp [scan_folders, herr, bind, Except.bind]
    · cases hl : loadFolder p.2 with
      | error e =>
        rw [loadFolder_error hl] at hl
        simp [scan_folders, hl, bind, Except.bind]
      | ok d =>
        simp [scan_folders, hl, bind, Except.bind, ih hmem]

/-- C9: if any folder's metadata file is malformed, the run fails with the
parse error and the README file is left exactly as it was: the write happens
only after every folder's metadata has been read and the table assembled. -/
theorem parse_error_aborts (fs : List FolderEntry) (prior : String)
    (entry : FolderEntry) (hmem : entry ∈ fs)
    (herr : loadFolder entry.2 = .error .parseError) :
    main_result fs = .error .parseError ∧ main_file fs prior = prior := by
  have hscan := scan_folders_error hmem herr
  have hres : main_result fs = .error .parseError := by
    simp [main_result, hscan, bind, Except.bind]
  exact ⟨hres, by simp [main_file, hres]⟩

/-- C9 witness: the theorem applied to a listing holding one folder with a
malformed metadata file. -/
theorem parse_error_aborts_witness :
    main_result [("a", [("meta.yaml", ParseResult.err)])] = .error .parseError ∧
    main_file [("a", [("meta.yaml", ParseResult.err)])] "prior text" = "prior text" :=
  parse_error_aborts [("a", [("meta.yaml", .err)])] "prior text"
    ("a", [("meta.yaml", .err)]) (by decide) rfl

/-- C10: every data row has exactly five cells, the folder name plus one
cell per preferred key, regardless of which keys occur in any record; the
header row can meanwhile be shorter (it never exceeds five columns). -/
theorem rows_always_five_cells (fd : FoldersData) (rows : List (List String))
    (h : data_rows fd = some rows) :
    (∀ r ∈ rows, r.length = 5) ∧ (headers fd).length ≤ 5 := by
  refine ⟨(build_rows_spec h).2, ?_⟩
  have hle : (ordered_keys fd).length ≤ desired_order.length :=
    (List.filter_sublist _).length_le
  simpa [headers] using Nat.succ_le_succ hle

/-- C10 witness: the theorem applied to a mapping with one folder and no
metadata: the row still has five cells while the header has one column. -/
theorem rows_always_five_cells_witness :
    (∀ r ∈ [["x", "", "", "", ""]], List.length r = 5) ∧
    (headers [("x", ([] : Dict))]).length ≤ 5 :=
  rows_always_five_cells [("x", [])] [["x", "", "", "", ""]] (by decide)
